import Mathlib

/-!
Verification development for the sale-transaction engine of the butcher-shop
point-of-sale application (src/app.py, route new_sale, together with its
sqlite-backed catalog store).

The shallow embedding below translates the data model (tables meat_items,
sales, sale_items) into Lean structures, and the body of the new_sale POST
handler into pure functions over an explicit store state.  SQLite REAL
columns are modelled as rationals; form input that may be blank or
non-numeric is modelled with Option.

Correspondence to src/app.py:
  MeatItem      = a row of meat_items            (init_db, lines 70-80)
  SaleRow       = a row of sales                 (lines 83-94)
  SaleItemRow   = a row of sale_items            (lines 97-110)
  RawLine       = one position of the parallel form lists item_id /
                  quantity / unit_price          (lines 414-416)
  processLines  = the validation loop            (lines 425-466)
  validateSale  = empty check plus the loop      (lines 422-466)
  commitSale    = the persistence block          (lines 474-513)
  submitSale    = the whole POST branch          (lines 411-516)
-/

/-- A row of the meat_items table: id, name, unit, price_per_unit,
stock_quantity. -/
structure MeatItem where
  id : Nat
  name : String
  unit : String
  pricePerUnit : ℚ
  stockQuantity : ℚ
deriving DecidableEq

/-- A row of the sales table: id, sale_datetime, user_id, customer_name
(NULL when the submitted name is empty), total_amount. -/
structure SaleRow where
  id : Nat
  saleDatetime : String
  userId : Nat
  customerName : Option String
  totalAmount : ℚ
deriving DecidableEq

/-- A row of the sale_items table: sale_id, meat_item_id, quantity,
unit_price, line_total. -/
structure SaleItemRow where
  saleId : Nat
  meatItemId : Nat
  quantity : ℚ
  unitPrice : ℚ
  lineTotal : ℚ
deriving DecidableEq

/-- The whole database state touched by new_sale: the three tables plus the
AUTOINCREMENT counter of the sales table (cur.lastrowid source). -/
structure Store where
  meatItems : List MeatItem
  sales : List SaleRow
  saleItems : List SaleItemRow
  nextSaleId : Nat
deriving DecidableEq

/-- One position of the parallel form lists item_id, quantity, unit_price.
itemId is none when the item_id field is blank (the loop skips such rows);
qty or price is none when float() would raise ValueError on the field. -/
structure RawLine where
  itemId : Option Nat
  qty : Option ℚ
  price : Option ℚ
deriving DecidableEq

/-- The POST request data consumed by new_sale: the acting user (g.user),
the stripped customer_name field, and the line rows. -/
structure SaleRequest where
  userId : Nat
  customerName : String
  lines : List RawLine
deriving DecidableEq

/-- The distinct error messages the new_sale handler can flash.
emptyOrder        = "At least one item is required."           (line 423)
nonNumeric        = "Quantity and price must be numeric."      (line 437)
invalidLineValue  = "Quantity must be positive and price must be
                     non-negative."                            (line 434)
itemNotFound      = "Invalid meat item."                       (line 449)
insufficientStock = "Not enough stock for {name}."             (line 453);
the message interpolates only the item name, nothing else. -/
inductive SaleError where
  | emptyOrder
  | nonNumeric
  | invalidLineValue
  | itemNotFound
  | insufficientStock (name : String)
deriving DecidableEq

/-- An element of the line_items working list built by the validation loop
(lines 458-466). -/
structure LineItem where
  meatItemId : Nat
  name : String
  quantity : ℚ
  unitPrice : ℚ
  lineTotal : ℚ
deriving DecidableEq

/-- SELECT * FROM meat_items WHERE id = ? (lines 442-444). -/
def findItem (items : List MeatItem) (iid : Nat) : Option MeatItem :=
  items.find? fun it => it.id = iid

/-- The validation loop of new_sale (lines 425-466): walk the submitted
rows in order carrying the running total_amount and the line_items list;
skip rows with a blank item_id; reject non-numeric quantity or price, then
non-positive quantity or negative price, then an unknown item id, then a
quantity exceeding the item's current stock; otherwise append the computed
line and continue.  The stock read is against the store as it was when the
request started: validation performs no writes. -/
def processLines (items : List MeatItem) :
    List RawLine → ℚ → List LineItem → Except SaleError (ℚ × List LineItem)
  | [], total, acc => .ok (total, acc)
  | l :: rest, total, acc =>
    match l.itemId with
    | none => processLines items rest total acc
    | some iid =>
      match l.qty, l.price with
      | some q, some p =>
        if q ≤ 0 ∨ p < 0 then .error .invalidLineValue
        else
          match findItem items iid with
          | none => .error .itemNotFound
          | some item =>
            if q > item.stockQuantity then .error (.insufficientStock item.name)
            else
              processLines items rest (total + q * p)
                (acc ++ [⟨iid, item.name, q, p, q * p⟩])
      | _, _ => .error .nonNumeric

/-- The whole validation pass of new_sale (lines 422-466): the empty-list
check followed by the loop, started with total 0.0 and no line items. -/
def validateSale (req : SaleRequest) (st : Store) :
    Except SaleError (ℚ × List LineItem) :=
  if req.lines.isEmpty then .error .emptyOrder
  else processLines st.meatItems req.lines 0 []

/-- UPDATE meat_items SET stock_quantity = stock_quantity - ? WHERE id = ?
(lines 503-510): an unconditional subtraction with no stock guard. -/
def decrementStock (items : List MeatItem) (iid : Nat) (q : ℚ) :
    List MeatItem :=
  items.map fun it =>
    if it.id = iid then { it with stockQuantity := it.stockQuantity - q }
    else it

/-- The per-line part of the persistence block (lines 487-510): for each
validated line, insert a sale_items row and run the stock update. -/
def applyLineItems (sid : Nat) (lis : List LineItem) (st : Store) : Store :=
  lis.foldl
    (fun s li =>
      { s with
        saleItems :=
          s.saleItems ++ [⟨sid, li.meatItemId, li.quantity, li.unitPrice, li.lineTotal⟩]
        meatItems := decrementStock s.meatItems li.meatItemId li.quantity })
    st

/-- The persistence block of new_sale (lines 474-513): insert the sales
header row (customer_name or None), take cur.lastrowid as the sale id, then
apply every line item.  No stock condition is re-checked here. -/
def commitSale (now : String) (req : SaleRequest) (total : ℚ)
    (lis : List LineItem) (st : Store) : SaleRow × Store :=
  let sale : SaleRow :=
    { id := st.nextSaleId
      saleDatetime := now
      userId := req.userId
      customerName := if req.customerName = "" then none else some req.customerName
      totalAmount := total }
  let st1 : Store :=
    { st with sales := st.sales ++ [sale], nextSaleId := st.nextSaleId + 1 }
  (sale, applyLineItems sale.id lis st1)

/-- The whole POST branch of new_sale (lines 411-516): validate, and on any
error return it with the store untouched, otherwise run the persistence
block and return the committed sale header. -/
def submitSale (now : String) (req : SaleRequest) (st : Store) :
    Except SaleError SaleRow × Store :=
  match validateSale req st with
  | .error e => (.error e, st)
  | .ok (total, lis) =>
    let p := commitSale now req total lis st
    (.ok p.1, p.2)

/-- Total quantity the validated lines request of item iid. -/
def sumQty : List LineItem → Nat → ℚ
  | [], _ => 0
  | li :: rest, iid =>
    (if li.meatItemId = iid then li.quantity else 0) + sumQty rest iid

/-- Total quantity the persisted sale_items rows record against item iid. -/
def rowsQty : List SaleItemRow → Nat → ℚ
  | [], _ => 0
  | r :: rest, iid =>
    (if r.meatItemId = iid then r.quantity else 0) + rowsQty rest iid


/-! ### Step equations for the validation loop -/

theorem processLines_nil (items : List MeatItem) (t : ℚ) (acc : List LineItem) :
    processLines items [] t acc = .ok (t, acc) := rfl

theorem processLines_cons_blank (items : List MeatItem) (oq op : Option ℚ)
    (rest : List RawLine) (t : ℚ) (acc : List LineItem) :
    processLines items (⟨none, oq, op⟩ :: rest) t acc =
      processLines items rest t acc := rfl

theorem processLines_cons_noQty (items : List MeatItem) (iid : Nat)
    (op : Option ℚ) (rest : List RawLine) (t : ℚ) (acc : List LineItem) :
    processLines items (⟨some iid, none, op⟩ :: rest) t acc =
      .error .nonNumeric := rfl

theorem processLines_cons_noPrice (items : List MeatItem) (iid : Nat) (q : ℚ)
    (rest : List RawLine) (t : ℚ) (acc : List LineItem) :
    processLines items (⟨some iid, some q, none⟩ :: rest) t acc =
      .error .nonNumeric := rfl

theorem processLines_cons_invalid (items : List MeatItem) (iid : Nat) (q p : ℚ)
    (rest : List RawLine) (t : ℚ) (acc : List LineItem)
    (h1 : q ≤ 0 ∨ p < 0) :
    processLines items (⟨some iid, some q, some p⟩ :: rest) t acc =
      .error .invalidLineValue := by
  simp only [processLines]
  rw [if_pos h1]

theorem processLines_cons_notFound (items : List MeatItem) (iid : Nat) (q p : ℚ)
    (rest : List RawLine) (t : ℚ) (acc : List LineItem)
    (h1 : ¬(q ≤ 0 ∨ p < 0)) (hf : findItem items iid = none) :
    processLines items (⟨some iid, some q, some p⟩ :: rest) t acc =
      .error .itemNotFound := by
  simp only [processLines]
  rw [if_neg h1, hf]

theorem processLines_cons_short (items : List MeatItem) (iid : Nat) (q p : ℚ)
    (item : MeatItem) (rest : List RawLine) (t : ℚ) (acc : List LineItem)
    (h1 : ¬(q ≤ 0 ∨ p < 0)) (hf : findItem items iid = some item)
    (h2 : q > item.stockQuantity) :
    processLines items (⟨some iid, some q, some p⟩ :: rest) t acc =
      .error (.insufficientStock item.name) := by
  simp only [processLines]
  rw [if_neg h1, hf]
  exact if_pos h2

theorem processLines_cons_accept (items : List MeatItem) (iid : Nat) (q p : ℚ)
    (item : MeatItem) (rest : List RawLine) (t : ℚ) (acc : List LineItem)
    (h1 : ¬(q ≤ 0 ∨ p < 0)) (hf : findItem items iid = some item)
    (h2 : ¬ q > item.stockQuantity) :
    processLines items (⟨some iid, some q, some p⟩ :: rest) t acc =
      processLines items rest (t + q * p) (acc ++ [⟨iid, item.name, q, p, q * p⟩]) := by
  simp only [processLines]
  rw [if_neg h1, hf]
  exact if_neg h2

/-! ### Structure of the persistence block -/

theorem applyLineItems_nil (sid : Nat) (st : Store) :
    applyLineItems sid [] st = st := rfl

theorem applyLineItems_cons (sid : Nat) (li : LineItem) (rest : List LineItem)
    (st : Store) :
    applyLineItems sid (li :: rest) st =
      applyLineItems sid rest
        { st with
          saleItems := st.saleItems ++
            [⟨sid, li.meatItemId, li.quantity, li.unitPrice, li.lineTotal⟩]
          meatItems := decrementStock st.meatItems li.meatItemId li.quantity } :=
  rfl

theorem applyLineItems_saleItems (sid : Nat) (lis : List LineItem) (st : Store) :
    (applyLineItems sid lis st).saleItems =
      st.saleItems ++ lis.map fun li =>
        (⟨sid, li.meatItemId, li.quantity, li.unitPrice, li.lineTotal⟩ : SaleItemRow) := by
  induction lis generalizing st with
  | nil => simp [applyLineItems_nil]
  | cons li rest ih =>
    rw [applyLineItems_cons, ih]
    simp

theorem applyLineItems_sales (sid : Nat) (lis : List LineItem) (st : Store) :
    (applyLineItems sid lis st).sales = st.sales := by
  induction lis generalizing st with
  | nil => rfl
  | cons li rest ih => rw [applyLineItems_cons, ih]

theorem applyLineItems_meatItems (sid : Nat) (lis : List LineItem) (st : Store) :
    (applyLineItems sid lis st).meatItems =
      st.meatItems.map fun it =>
        { it with stockQuantity := it.stockQuantity - sumQty lis it.id } := by
  induction lis generalizing st with
  | nil =>
    rw [applyLineItems_nil]
    simp [sumQty]
  | cons li rest ih =>
    rw [applyLineItems_cons, ih]
    simp only [decrementStock, List.map_map]
    apply List.map_congr_left
    intro it _
    by_cases hid : it.id = li.meatItemId
    · simp [Function.comp, hid, sumQty, sub_sub]
    · have hid2 : ¬ li.meatItemId = it.id := fun h => hid h.symm
      simp [Function.comp, hid, sumQty, hid2]

theorem rowsQty_map (sid : Nat) (lis : List LineItem) (iid : Nat) :
    rowsQty
        (lis.map fun li =>
          (⟨sid, li.meatItemId, li.quantity, li.unitPrice, li.lineTotal⟩ : SaleItemRow))
        iid =
      sumQty lis iid := by
  induction lis with
  | nil => rfl
  | cons li rest ih => simp [rowsQty, sumQty, ih]

/-! ### Structure of the validation loop -/

/-- Running the validation loop over a list that begins with an
already-accepted prefix continues from the prefix's accumulated state. -/
theorem processLines_append (items : List MeatItem) (pre ls : List RawLine)
    (t t' : ℚ) (acc acc' : List LineItem)
    (h : processLines items pre t acc = .ok (t', acc')) :
    processLines items (pre ++ ls) t acc = processLines items ls t' acc' := by
  induction pre generalizing t acc with
  | nil =>
    rw [processLines_nil] at h
    simp only [Except.ok.injEq, Prod.mk.injEq] at h
    obtain ⟨rfl, rfl⟩ := h
    simp
  | cons l rest ih =>
    obtain ⟨oid, oq, op⟩ := l
    rw [List.cons_append]
    cases oid with
    | none =>
      rw [processLines_cons_blank] at h ⊢
      exact ih _ _ h
    | some iid =>
      cases oq with
      | none => rw [processLines_cons_noQty] at h; exact absurd h (by simp)
      | some q =>
        cases op with
        | none => rw [processLines_cons_noPrice] at h; exact absurd h (by simp)
        | some p =>
          by_cases h1 : q ≤ 0 ∨ p < 0
          · rw [processLines_cons_invalid items iid q p rest t acc h1] at h
            exact absurd h (by simp)
          · cases hf : findItem items iid with
            | none =>
              rw [processLines_cons_notFound items iid q p rest t acc h1 hf] at h
              exact absurd h (by simp)
            | some item =>
              by_cases h2 : q > item.stockQuantity
              · rw [processLines_cons_short items iid q p item rest t acc h1 hf h2] at h
                exact absurd h (by simp)
              · rw [processLines_cons_accept items iid q p item rest t acc h1 hf h2] at h
                rw [processLines_cons_accept items iid q p item (rest ++ ls) t acc h1 hf h2]
                exact ih _ _ h

/-- What an accepted validation run produces: the accumulated line-item list
grows by a suffix whose line totals are exactly quantity times unit price,
and the running total grows by exactly the sum of those products. -/
theorem processLines_ok (items : List MeatItem) (ls : List RawLine)
    (t t' : ℚ) (acc acc' : List LineItem)
    (h : processLines items ls t acc = .ok (t', acc')) :
    ∃ post, acc' = acc ++ post ∧
      t' = t + (post.map fun li => li.quantity * li.unitPrice).sum ∧
      ∀ li ∈ post, li.lineTotal = li.quantity * li.unitPrice := by
  induction ls generalizing t acc with
  | nil =>
    rw [processLines_nil] at h
    simp only [Except.ok.injEq, Prod.mk.injEq] at h
    obtain ⟨rfl, rfl⟩ := h
    exact ⟨[], by simp⟩
  | cons l rest ih =>
    obtain ⟨oid, oq, op⟩ := l
    cases oid with
    | none =>
      rw [processLines_cons_blank] at h
      exact ih _ _ h
    | some iid =>
      cases oq with
      | none => rw [processLines_cons_noQty] at h; exact absurd h (by simp)
      | some q =>
        cases op with
        | none => rw [processLines_cons_noPrice] at h; exact absurd h (by simp)
        | some p =>
          by_cases h1 : q ≤ 0 ∨ p < 0
          · rw [processLines_cons_invalid items iid q p rest t acc h1] at h
            exact absurd h (by simp)
          · cases hf : findItem items iid with
            | none =>
              rw [processLines_cons_notFound items iid q p rest t acc h1 hf] at h
              exact absurd h (by simp)
            | some item =>
              by_cases h2 : q > item.stockQuantity
              · rw [processLines_cons_short items iid q p item rest t acc h1 hf h2] at h
                exact absurd h (by simp)
              · rw [processLines_cons_accept items iid q p item rest t acc h1 hf h2] at h
                obtain ⟨post, hacc, ht, hlt⟩ := ih _ _ h
                refine ⟨⟨iid, item.name, q, p, q * p⟩ :: post, ?_, ?_, ?_⟩
                · simpa using hacc
                · rw [ht]
                  simp [add_assoc]
                · intro li hli
                  rcases List.mem_cons.mp hli with hli | hli
                  · subst hli; rfl
                  · exact hlt li hli

/-- Rows whose item id field is blank are skipped with no effect on the
accumulated state. -/
theorem processLines_blank (items : List MeatItem) (ls : List RawLine)
    (t : ℚ) (acc : List LineItem) (hb : ∀ l ∈ ls, l.itemId = none) :
    processLines items ls t acc = .ok (t, acc) := by
  induction ls with
  | nil => rfl
  | cons l rest ih =>
    obtain ⟨oid, oq, op⟩ := l
    have h1 : oid = none := hb ⟨oid, oq, op⟩ (by simp)
    subst h1
    rw [processLines_cons_blank]
    exact ih fun x hx => hb x (List.mem_cons_of_mem _ hx)

/-! ### Inversion principles for submitSale -/

theorem submitSale_of_error (now : String) (req : SaleRequest) (st : Store)
    (e : SaleError) (h : validateSale req st = .error e) :
    submitSale now req st = (.error e, st) := by
  simp [submitSale, h]

theorem submitSale_of_ok (now : String) (req : SaleRequest) (st : Store)
    (t : ℚ) (lis : List LineItem) (h : validateSale req st = .ok (t, lis)) :
    submitSale now req st =
      (.ok (commitSale now req t lis st).1, (commitSale now req t lis st).2) := by
  simp [submitSale, h]

theorem submitSale_error_inv (now : String) (req : SaleRequest) (st : Store)
    (e : SaleError) (h : (submitSale now req st).1 = .error e) :
    validateSale req st = .error e ∧ (submitSale now req st).2 = st := by
  cases hv : validateSale req st with
  | error e2 =>
    have hs := submitSale_of_error now req st e2 hv
    rw [hs] at h
    simp only [Except.error.injEq] at h
    subst h
    exact ⟨rfl, by rw [hs]⟩
  | ok pr =>
    have hs := submitSale_of_ok now req st pr.1 pr.2 hv
    rw [hs] at h
    simp at h

theorem submitSale_ok_inv (now : String) (req : SaleRequest) (st : Store)
    (sale : SaleRow) (st' : Store)
    (h : submitSale now req st = (.ok sale, st')) :
    ∃ t lis, validateSale req st = .ok (t, lis) ∧
      sale = (commitSale now req t lis st).1 ∧
      st' = (commitSale now req t lis st).2 := by
  cases hv : validateSale req st with
  | error e =>
    rw [submitSale_of_error now req st e hv] at h
    simp at h
  | ok pr =>
    have hs := submitSale_of_ok now req st pr.1 pr.2 hv
    rw [hs] at h
    have h1 : (Except.ok (commitSale now req pr.1 pr.2 st).1 : Except SaleError SaleRow) = .ok sale :=
      congrArg Prod.fst h
    have h2 : (commitSale now req pr.1 pr.2 st).2 = st' := congrArg Prod.snd h
    simp only [Except.ok.injEq] at h1
    exact ⟨pr.1, pr.2, rfl, h1.symm, h2.symm⟩

theorem validateSale_ok_inv (req : SaleRequest) (st : Store) (t : ℚ)
    (lis : List LineItem) (h : validateSale req st = .ok (t, lis)) :
    processLines st.meatItems req.lines 0 [] = .ok (t, lis) := by
  by_cases he : req.lines.isEmpty
  · rw [validateSale, if_pos he] at h
    exact absurd h (by simp)
  · rw [validateSale, if_neg he] at h
    exact h

/-! ### Concrete stores and requests used as evidence -/

/-- A catalog holding one Goat item with stock 5. -/
def dupStore : Store := ⟨[⟨1, "Goat", "kg", 2, 5⟩], [], [], 1⟩

/-- A request with two lines for the same item, each asking quantity 3:
each line alone is within the stock of 5, together they exceed it. -/
def dupReq : SaleRequest := ⟨3, "", [⟨some 1, some 3, some 2⟩, ⟨some 1, some 3, some 2⟩]⟩

/-- A catalog holding one Pork item with stock 10. -/
def c2Store : Store := ⟨[⟨2, "Pork", "kg", 9, 10⟩], [], [], 1⟩

/-- A request with two lines for the Pork item, each asking quantity 7. -/
def c2Req : SaleRequest := ⟨4, "", [⟨some 2, some 7, some 9⟩, ⟨some 2, some 7, some 9⟩]⟩

/-- A catalog holding one Beef item with stock exactly 5. -/
def raceStore : Store := ⟨[⟨1, "Beef", "kg", 10, 5⟩], [], [], 1⟩

/-- A request for quantity 5 of the Beef item, submitted by two concurrent
cashier sessions. -/
def raceReq : SaleRequest := ⟨7, "", [⟨some 1, some 5, some 10⟩]⟩

/-- The validated line both sessions produce from raceStore. -/
def raceLine : LineItem := ⟨1, "Beef", 5, 10, 50⟩

/-- Store after the first session's commit runs on raceStore. -/
def raceCommit1 : Store := (commitSale "t1" raceReq 50 [raceLine] raceStore).2

/-- Store after the second session's commit then runs on raceCommit1,
replaying its own validation result, which was computed against raceStore
and is stale by commit time. -/
def raceCommit2 : Store := (commitSale "t2" raceReq 50 [raceLine] raceCommit1).2

/-! ### The claims -/

/-- Claim C1: the spec asserts stockQuantity stays non-negative across every
submitSale, in particular that any request passing per-line validation
(each line's quantity within the item's current stock, even when several
lines reference the same item) commits to a non-negative stock.  The code
violates this: validation checks each line against the same unchanged stock
snapshot, while the commit subtracts the sum, so two lines of quantity 3
against stock 5 both validate and the committed stock is -1. -/
theorem C1_dup_lines_negative_stock :
    dupStore.meatItems = [⟨1, "Goat", "kg", 2, 5⟩] ∧
    (submitSale "t" dupReq dupStore).1 = .ok ⟨1, "t", 3, none, 12⟩ ∧
    (submitSale "t" dupReq dupStore).2.meatItems = [⟨1, "Goat", "kg", 2, -1⟩] ∧
    ∃ it ∈ (submitSale "t" dupReq dupStore).2.meatItems, it.stockQuantity < 0 := by
  have hs : submitSale "t" dupReq dupStore =
      (.ok ⟨1, "t", 3, none, 12⟩,
        ⟨[⟨1, "Goat", "kg", 2, -1⟩], [⟨1, "t", 3, none, 12⟩],
          [⟨1, 1, 3, 2, 6⟩, ⟨1, 1, 3, 2, 6⟩], 2⟩) := by
    norm_num [submitSale, validateSale, processLines, findItem, List.find?,
      commitSale, applyLineItems, decrementStock, dupReq, dupStore]
  refine ⟨rfl, by rw [hs], by rw [hs], ?_⟩
  rw [hs]
  exact ⟨⟨1, "Goat", "kg", 2, -1⟩, by simp, by norm_num⟩

/-- Claim C2: the spec asserts the stock decrement re-checks non-negativity
inside the commit and fails with InsufficientStock whenever the result
would be negative.  The code's commit runs an unconditional UPDATE
stock_quantity = stock_quantity - ? with no guard: on a request whose lines
jointly overdraw the Pork stock of 10 by 4, the commit succeeds, no
InsufficientStock is raised, and the stored stock is -4. -/
theorem C2_commit_has_no_recheck :
    (submitSale "t" c2Req c2Store).1 = .ok ⟨1, "t", 4, none, 126⟩ ∧
    (submitSale "t" c2Req c2Store).2.meatItems = [⟨2, "Pork", "kg", 9, -4⟩] ∧
    ∀ n, (submitSale "t" c2Req c2Store).1 ≠ .error (.insufficientStock n) := by
  have hs : submitSale "t" c2Req c2Store =
      (.ok ⟨1, "t", 4, none, 126⟩,
        ⟨[⟨2, "Pork", "kg", 9, -4⟩], [⟨1, "t", 4, none, 126⟩],
          [⟨1, 2, 7, 9, 63⟩, ⟨1, 2, 7, 9, 63⟩], 2⟩) := by
    norm_num [submitSale, validateSale, processLines, findItem, List.find?,
      commitSale, applyLineItems, decrementStock, c2Req, c2Store]
  refine ⟨by rw [hs], by rw [hs], ?_⟩
  intro n
  rw [hs]
  simp

/-- Claim C6: the spec asserts that two concurrent submitSale calls, each
for quantity 5 of an item with stock exactly 5, end with exactly one
success and one InsufficientStock failure.  The code reads stock during
validation on its own connection and commits without re-checking, so under
the schedule validate-A, validate-B, commit-A, commit-B both validations
read stock 5 and accept, both commits apply, two sale headers are
persisted, and the final stock is -5. -/
theorem C6_race_both_commit :
    validateSale raceReq raceStore = .ok (50, [raceLine]) ∧
    submitSale "t1" raceReq raceStore = (.ok ⟨1, "t1", 7, none, 50⟩, raceCommit1) ∧
    raceCommit2.meatItems = [⟨1, "Beef", "kg", 10, -5⟩] ∧
    raceCommit2.sales.length = 2 := by
  refine ⟨?_, ?_, ?_, ?_⟩
  · norm_num [validateSale, processLines, findItem, List.find?, raceReq,
      raceStore, raceLine]
  · norm_num [submitSale, validateSale, processLines, findItem, List.find?,
      commitSale, applyLineItems, decrementStock, raceReq, raceStore,
      raceLine, raceCommit1]
  · norm_num [raceCommit2, raceCommit1, commitSale, applyLineItems,
      decrementStock, raceReq, raceStore, raceLine]
  · norm_num [raceCommit2, raceCommit1, commitSale, applyLineItems,
      decrementStock, raceReq, raceStore, raceLine]

/-- The Beef catalog of the end-to-end example: stock 50 at 12.5 per kg. -/
def beefStore : Store := ⟨[⟨1, "Beef", "kg", 12.5, 50⟩], [], [], 1⟩

/-- The example request: 5 kg of Beef at unit price 12.5. -/
def beefReq : SaleRequest := ⟨7, "", [⟨some 1, some 5, some 12.5⟩]⟩

/-- The sale header the example commit produces. -/
def beefSale : SaleRow := ⟨1, "t", 7, none, 62.5⟩

/-- The store after the example commit: stock decreased to 45, one header,
one line row. -/
def beefStoreAfter : Store :=
  ⟨[⟨1, "Beef", "kg", 12.5, 45⟩], [beefSale], [⟨1, 1, 5, 12.5, 62.5⟩], 2⟩

/-- Claim C3: whenever submitSale returns any SaleError, no sales header
row and no sale_items rows are persisted and no stock changes: the store
after the failed call is exactly the store before it. -/
theorem C3_error_leaves_store_unchanged (now : String) (req : SaleRequest)
    (st : Store) (e : SaleError)
    (h : (submitSale now req st).1 = .error e) :
    (submitSale now req st).2 = st :=
  (submitSale_error_inv now req st e h).2

/-- Witness for C3 at a concrete input: an empty order is rejected and the
store is returned unchanged. -/
theorem C3_witness :
    (submitSale "t" ⟨9, "", []⟩ dupStore).1 = .error .emptyOrder ∧
    (submitSale "t" ⟨9, "", []⟩ dupStore).2 = dupStore :=
  ⟨by norm_num [submitSale, validateSale],
    C3_error_leaves_store_unchanged "t" ⟨9, "", []⟩ dupStore .emptyOrder
      (by norm_num [submitSale, validateSale])⟩

/-- Claim C4: a successful commit appends exactly one sale_items row per
validated line, each carrying line_total = quantity * unit_price and the
new sale's id, and the header's total_amount is exactly the sum of
quantity * unit_price over those rows. -/
theorem C4_totals (now : String) (req : SaleRequest) (st : Store)
    (sale : SaleRow) (st' : Store)
    (h : submitSale now req st = (.ok sale, st')) :
    ∃ rows, st'.saleItems = st.saleItems ++ rows ∧
      (∀ r ∈ rows, r.saleId = sale.id ∧ r.lineTotal = r.quantity * r.unitPrice) ∧
      sale.totalAmount = (rows.map fun r => r.quantity * r.unitPrice).sum := by
  obtain ⟨t, lis, hv, hsale, hst⟩ := submitSale_ok_inv now req st sale st' h
  have hpl := validateSale_ok_inv req st t lis hv
  obtain ⟨post, hacc, ht, hlt⟩ :=
    processLines_ok st.meatItems req.lines 0 t [] lis hpl
  rw [List.nil_append] at hacc
  subst hacc
  refine ⟨lis.map fun li =>
    ⟨sale.id, li.meatItemId, li.quantity, li.unitPrice, li.lineTotal⟩, ?_, ?_, ?_⟩
  · rw [hst, hsale]
    simp only [commitSale]
    rw [applyLineItems_saleItems]
  · intro r hr
    obtain ⟨li, hli, rfl⟩ := List.mem_map.mp hr
    exact ⟨rfl, hlt li hli⟩
  · rw [hsale]
    simp only [commitSale]
    rw [ht, zero_add, List.map_map]
    rfl

/-- Witness for C4 at the end-to-end example: 5 kg of Beef at 12.5 commits
with total 62.5 and one line row with line_total 62.5. -/
theorem C4_witness :
    ∃ rows, beefStoreAfter.saleItems = beefStore.saleItems ++ rows ∧
      (∀ r ∈ rows, r.saleId = beefSale.id ∧ r.lineTotal = r.quantity * r.unitPrice) ∧
      beefSale.totalAmount = (rows.map fun r => r.quantity * r.unitPrice).sum :=
  C4_totals "t" beefReq beefStore beefSale beefStoreAfter (by
    norm_num [submitSale, validateSale, processLines, findItem, List.find?,
      commitSale, applyLineItems, decrementStock, beefReq, beefStore,
      beefSale, beefStoreAfter])

/-- Claim C5: frame property of a successful commit.  The sale_items table
grows by exactly the sale's rows; every item's stock is decreased by
exactly the total quantity those rows request of it, all its other fields
untouched; items referenced by no row are entirely unchanged; the sales
table grows by exactly the returned header. -/
theorem C5_frame (now : String) (req : SaleRequest) (st : Store)
    (sale : SaleRow) (st' : Store)
    (h : submitSale now req st = (.ok sale, st')) :
    ∃ rows, st'.saleItems = st.saleItems ++ rows ∧
      st'.meatItems = st.meatItems.map (fun it =>
        { it with stockQuantity := it.stockQuantity - rowsQty rows it.id }) ∧
      (∀ it ∈ st.meatItems, rowsQty rows it.id = 0 → it ∈ st'.meatItems) ∧
      st'.sales = st.sales ++ [sale] := by
  obtain ⟨t, lis, hv, hsale, hst⟩ := submitSale_ok_inv now req st sale st' h
  have hmi : st'.meatItems = st.meatItems.map (fun it =>
      { it with stockQuantity := it.stockQuantity -
          rowsQty (lis.map fun li =>
            (⟨sale.id, li.meatItemId, li.quantity, li.unitPrice, li.lineTotal⟩ : SaleItemRow)) it.id }) := by
    rw [hst]
    simp only [commitSale]
    rw [applyLineItems_meatItems]
    apply List.map_congr_left
    intro it _
    rw [rowsQty_map]
  refine ⟨lis.map fun li =>
    ⟨sale.id, li.meatItemId, li.quantity, li.unitPrice, li.lineTotal⟩, ?_, hmi, ?_, ?_⟩
  · rw [hst, hsale]
    simp only [commitSale]
    rw [applyLineItems_saleItems]
  · intro it hit h0
    rw [hmi]
    exact List.mem_map.mpr ⟨it, hit, by rw [h0, sub_zero]⟩
  · rw [hst, hsale]
    simp only [commitSale]
    rw [applyLineItems_sales]

/-- Witness for C5 at the end-to-end example: after selling 5 kg of Beef
from a stock of 50, the Beef row holds stock 45 with every other field
unchanged. -/
theorem C5_witness :
    (∃ rows, beefStoreAfter.saleItems = beefStore.saleItems ++ rows ∧
      beefStoreAfter.meatItems = beefStore.meatItems.map (fun it =>
        { it with stockQuantity := it.stockQuantity - rowsQty rows it.id }) ∧
      (∀ it ∈ beefStore.meatItems, rowsQty rows it.id = 0 → it ∈ beefStoreAfter.meatItems) ∧
      beefStoreAfter.sales = beefStore.sales ++ [beefSale]) ∧
    beefStoreAfter.meatItems = [⟨1, "Beef", "kg", 12.5, 45⟩] :=
  ⟨C5_frame "t" beefReq beefStore beefSale beefStoreAfter (by
      norm_num [submitSale, validateSale, processLines, findItem, List.find?,
        commitSale, applyLineItems, decrementStock, beefReq, beefStore,
        beefSale, beefStoreAfter]),
    rfl⟩

/-- The failure example's catalog: Beef with stock 45. -/
def beefStore45 : Store := ⟨[⟨1, "Beef", "kg", 12.5, 45⟩], [], [], 1⟩

/-- A request for 50 kg of Beef against stock 45. -/
def overReq50 : SaleRequest := ⟨7, "", [⟨some 1, some 50, some 12.5⟩]⟩

/-- A request for 60 kg of Beef against stock 45. -/
def overReq60 : SaleRequest := ⟨7, "", [⟨some 1, some 60, some 12.5⟩]⟩

/-- Claim C7 counterexample: the claim says the rejection identifies the
offending item, the requested quantity and the available stock, but the
code's error carries only the item name: requesting 50 and requesting 60
against the same stock of 45 produce the identical error value, so neither
the requested quantity nor the available stock can be recovered from it. -/
theorem C7_counterexample :
    (submitSale "t" overReq50 beefStore45).1 = .error (.insufficientStock "Beef") ∧
    (submitSale "t" overReq60 beefStore45).1 = .error (.insufficientStock "Beef") := by
  constructor <;>
    norm_num [submitSale, validateSale, processLines, findItem, List.find?,
      overReq50, overReq60, beefStore45]

/-- Claim C7 as amended: a request whose earlier lines all validate and
which then hits a line asking more than the item's current stock is
rejected with an InsufficientStock error naming the offending item (by
name only), persists zero rows, and leaves the whole store unchanged. -/
theorem C7_insufficient_rejected (now : String) (st : Store) (uid : Nat)
    (cn : String) (pre rest : List RawLine) (l : RawLine) (iid : Nat)
    (q p t0 : ℚ) (acc0 : List LineItem) (item : MeatItem)
    (hpre : processLines st.meatItems pre 0 [] = .ok (t0, acc0))
    (hid : l.itemId = some iid) (hq : l.qty = some q) (hp : l.price = some p)
    (hqpos : 0 < q) (hpnn : 0 ≤ p)
    (hfind : findItem st.meatItems iid = some item)
    (hover : item.stockQuantity < q) :
    submitSale now ⟨uid, cn, pre ++ l :: rest⟩ st =
      (.error (.insufficientStock item.name), st) := by
  apply submitSale_of_error
  have hne : ((pre ++ l :: rest).isEmpty) = false := by
    cases pre <;> rfl
  obtain ⟨oid, oq, op⟩ := l
  simp only at hid hq hp
  subst hid; subst hq; subst hp
  rw [validateSale]
  simp only [hne, Bool.false_eq_true, if_false]
  rw [processLines_append st.meatItems pre _ 0 t0 [] acc0 hpre]
  exact processLines_cons_short st.meatItems iid q p item rest t0 acc0
    (by
      rintro (h1 | h2)
      · exact absurd hqpos (not_lt.mpr h1)
      · exact absurd hpnn (not_le.mpr h2))
    hfind hover

/-- Witness for the amended C7 at the spec's failure example: requesting
50 kg of Beef against stock 45 is rejected naming Beef, and the store is
returned unchanged. -/
theorem C7_witness :
    submitSale "t" ⟨7, "", [] ++ ⟨some 1, some 50, some 12.5⟩ :: []⟩ beefStore45 =
      (.error (.insufficientStock "Beef"), beefStore45) :=
  C7_insufficient_rejected "t" beefStore45 7 "" [] []
    ⟨some 1, some 50, some 12.5⟩ 1 50 12.5 0 [] ⟨1, "Beef", "kg", 12.5, 45⟩
    rfl rfl rfl rfl (by norm_num) (by norm_num) rfl (by norm_num)

/-- Claim C8: a request whose line sequence is empty is rejected with the
EmptyOrder error ("At least one item is required.") and the store is left
exactly as it was. -/
theorem C8_empty_rejected (now : String) (req : SaleRequest) (st : Store)
    (h : req.lines = []) :
    submitSale now req st = (.error .emptyOrder, st) := by
  apply submitSale_of_error
  rw [validateSale, h]
  rfl

/-- Witness for C8: submitting zero lines against the Pork catalog returns
EmptyOrder and the unchanged store. -/
theorem C8_witness :
    submitSale "t" ⟨8, "bob", []⟩ c2Store = (.error .emptyOrder, c2Store) :=
  C8_empty_rejected "t" ⟨8, "bob", []⟩ c2Store rfl

/-- Claim C9: idempotence of failure.  A rejected submitSale leaves the
store unchanged, and re-submitting the identical request against that
store (at any later timestamp) yields exactly the same SaleError: on the
error path the result is a pure function of request and store state. -/
theorem C9_failure_idempotent (now now2 : String) (req : SaleRequest)
    (st : Store) (e : SaleError)
    (h : (submitSale now req st).1 = .error e) :
    submitSale now2 req ((submitSale now req st).2) = (.error e, st) := by
  obtain ⟨hv, hst⟩ := submitSale_error_inv now req st e h
  rw [hst]
  exact submitSale_of_error now2 req st e hv

/-- Witness for C9: the 50-kg-of-Beef rejection replays identically at a
later timestamp against the state the failed call left behind. -/
theorem C9_witness :
    (submitSale "t" overReq50 beefStore45).1 = .error (.insufficientStock "Beef") ∧
    submitSale "u" overReq50 ((submitSale "t" overReq50 beefStore45).2) =
      (.error (.insufficientStock "Beef"), beefStore45) :=
  ⟨by
    norm_num [submitSale, validateSale, processLines, findItem, List.find?,
      overReq50, beefStore45],
    C9_failure_idempotent "t" "u" overReq50 beefStore45 (.insufficientStock "Beef")
      (by
        norm_num [submitSale, validateSale, processLines, findItem, List.find?,
          overReq50, beefStore45])⟩

/-- Claim C10: a request whose line list is non-empty but whose every line
has a blank item id is not rejected: the blank rows are skipped, the sale
commits, a header with total_amount 0 is appended to the sales table, the
sale id counter advances, and no sale_items rows and no stock changes are
made (the store update below touches only the sales list and the id
counter). -/
theorem C10_blank_lines_commit (now : String) (req : SaleRequest) (st : Store)
    (hne : req.lines ≠ [])
    (hb : ∀ l ∈ req.lines, l.itemId = none) :
    submitSale now req st =
      (.ok ⟨st.nextSaleId, now, req.userId,
          (if req.customerName = "" then none else some req.customerName), 0⟩,
        { st with
          sales := st.sales ++
            [⟨st.nextSaleId, now, req.userId,
              (if req.customerName = "" then none else some req.customerName), 0⟩]
          nextSaleId := st.nextSaleId + 1 }) := by
  have hne2 : req.lines.isEmpty = false := by
    cases hl : req.lines with
    | nil => exact absurd hl hne
    | cons a as => rfl
  have hv : validateSale req st = .ok (0, []) := by
    rw [validateSale]
    simp only [hne2, Bool.false_eq_true, if_false]
    exact processLines_blank st.meatItems req.lines 0 [] hb
  rw [submitSale_of_ok now req st 0 [] hv]
  rfl

/-- A non-empty request in which every line has a blank item id. -/
def blankReq : SaleRequest :=
  ⟨5, "walk-in", [⟨none, none, none⟩, ⟨none, some 3, some 4⟩]⟩

/-- Witness for C10: a two-line request whose lines are all blank commits
against the Goat catalog with total 0, appending only a header row. -/
theorem C10_witness :
    submitSale "t" blankReq dupStore =
      (.ok ⟨dupStore.nextSaleId, "t", blankReq.userId,
          (if blankReq.customerName = "" then none else some blankReq.customerName), 0⟩,
        { dupStore with
          sales := dupStore.sales ++
            [⟨dupStore.nextSaleId, "t", blankReq.userId,
              (if blankReq.customerName = "" then none else some blankReq.customerName), 0⟩]
          nextSaleId := dupStore.nextSaleId + 1 }) :=
  C10_blank_lines_commit "t" blankReq dupStore (by simp [blankReq])
    (by
      intro l hl
      rcases List.mem_cons.mp hl with rfl | hl2
      · rfl
      · rcases List.mem_cons.mp hl2 with rfl | hl3
        · rfl
        · exact absurd hl3 (List.not_mem_nil l))
